import Mathlib

/-!
Shallow embedding of suricata's `src/util-mem.h`: the guarded allocation
macros (`SCMalloc`, `SCCalloc`, `SCRealloc`, `SCStrdup`, `SCStrndup`,
`SCFree`, `SCMallocAligned`, `SCFreeAligned`).  Each macro wraps one
underlying allocator primitive; on primitive failure it reads the atomic
`engine_stage` gate and either logs two diagnostics and calls
`exit(EXIT_FAILURE)` (stage `SURICATA_INIT`) or returns NULL to the caller.

The underlying platform primitives (`malloc`, `calloc`, `realloc`,
`strdup`, `posix_memalign`) are external collaborators; each operation
takes the primitive's result as an explicit oracle argument (`none`
models a NULL return).  The observable state is the `engine_stage` value,
the list of diagnostic records handed to `SCLogError`, and the list of
pointers handed to the C `free` (heap accounting).
-/

namespace UtilMem

/-- Error categories handed to `SCLogError` by the failure branches. -/
inductive ErrorCode where
  | SC_ERR_MEM_ALLOC
  | SC_ERR_FATAL
deriving DecidableEq, Repr

/-- One record handed to the diagnostic collaborator `SCLogError`:
its error category, the fixed part of the formatted message, the byte
count printed in the message (when the message has one) and the
alignment printed in the message (when it has one). -/
structure DiagnosticRecord where
  category : ErrorCode
  message : String
  bytes : Option Nat
  alignment : Option Nat
deriving DecidableEq, Repr

/-- Engine stage value the failure branches compare against
(`SC_ATOMIC_GET(engine_stage) == SURICATA_INIT`). -/
def SURICATA_INIT : Nat := 0

/-- C standard graceful exit status. -/
def EXIT_SUCCESS : Nat := 0

/-- C standard generic failure exit status, the argument of every
`exit(EXIT_FAILURE)` call in the failure branches. -/
def EXIT_FAILURE : Nat := 1

/-- Observable state threaded through the facade: the atomic
`engine_stage` gate, the diagnostics emitted so far, and the pointers
handed to the C `free` so far (heap accounting). -/
structure MemState where
  engine_stage : Nat
  diagLog : List DiagnosticRecord
  freed : List Nat
deriving DecidableEq, Repr

/-- Result of one facade call: either the call returns a value in a
(possibly updated) state, or the process exits with a status code. -/
inductive Outcome (α : Type) where
  | ret : α → MemState → Outcome α
  | exited : Nat → MemState → Outcome α
deriving DecidableEq, Repr

/-- State at the end of the call (at return or at the exit point). -/
def Outcome.state {α : Type} : Outcome α → MemState
  | .ret _ st => st
  | .exited _ st => st

/-- Exit status when the call terminated the process, `none` when it
returned. -/
def Outcome.exitCode {α : Type} : Outcome α → Option Nat
  | .ret _ _ => none
  | .exited c _ => some c

/-- Returned value when the call returned, `none` when it exited. -/
def Outcome.retv {α : Type} : Outcome α → Option α
  | .ret v _ => some v
  | .exited _ _ => none

/-- `SCLogError`: hand one record to the diagnostic collaborator. -/
def scLogError (st : MemState) (d : DiagnosticRecord) : MemState :=
  { st with diagLog := st.diagLog ++ [d] }

/-- The second, fatal diagnostic every failure branch emits. -/
def fatalRec : DiagnosticRecord :=
  ⟨.SC_ERR_FATAL, "Out of memory. The engine cannot be initialized. Exiting...", none, none⟩

/-- Shared failure tail of every guarded operation when the stage is
`SURICATA_INIT`: emit the per-operation `SC_ERR_MEM_ALLOC` diagnostic,
emit the fatal diagnostic, then `exit(EXIT_FAILURE)`. -/
def fatalPath {α : Type} (st : MemState) (op : String) (bytes : Option Nat)
    (alignment : Option Nat) : Outcome α :=
  Outcome.exited EXIT_FAILURE
    (scLogError (scLogError st ⟨.SC_ERR_MEM_ALLOC, op, bytes, alignment⟩) fatalRec)

/-- `SCMalloc(a)`: `prim` is the oracle result of `malloc(a)` (`none`
models a NULL return).  On NULL, if the stage is `SURICATA_INIT` the
fatal path runs (logging the requested size `a`); otherwise NULL is
returned to the caller. -/
def SCMalloc (st : MemState) (a : Nat) (prim : Option Nat) : Outcome (Option Nat) :=
  match prim with
  | some p => .ret (some p) st
  | none =>
    if st.engine_stage = SURICATA_INIT then
      fatalPath st "SCMalloc failed" (some a) none
    else
      .ret none st

/-- `SCCalloc(nm, a)`: `prim` is the oracle result of `calloc(nm, a)`.
The diagnostic of the fatal path prints only the second argument `a`,
exactly as the macro's format arguments do. -/
def SCCalloc (st : MemState) (nm a : Nat) (prim : Option Nat) : Outcome (Option Nat) :=
  match prim with
  | some p => .ret (some p) st
  | none =>
    if st.engine_stage = SURICATA_INIT then
      fatalPath st "SCCalloc failed" (some a) none
    else
      .ret none st

/-- `SCRealloc(x, a)`: `prim` is the oracle result of `realloc(x, a)`. -/
def SCRealloc (st : MemState) (x : Option Nat) (a : Nat) (prim : Option Nat) :
    Outcome (Option Nat) :=
  match prim with
  | some p => .ret (some p) st
  | none =>
    if st.engine_stage = SURICATA_INIT then
      fatalPath st "SCRealloc failed" (some a) none
    else
      .ret none st

/-- Length of a C string held as a byte list: the number of bytes before
the first NUL byte. -/
def cstrlen (s : List Nat) : Nat := (s.takeWhile (· != 0)).length

/-- Number of bytes the C library `strdup` requests from the allocator
for source `s`: `strlen(s) + 1`, the string bytes plus the terminator. -/
def strdupRequestBytes (s : List Nat) : Nat := cstrlen s + 1

/-- `SCStrdup(a)`: `prim` is the oracle result of `strdup(a)` (on
success, the duplicated buffer).  The fatal diagnostic prints
`strlen(a)` (the macro computes `_scstrdup_len = strlen((a))` and prints
that), not the `strlen(a) + 1` bytes the primitive requested. -/
def SCStrdup (st : MemState) (a : List Nat) (prim : Option (List Nat)) :
    Outcome (Option (List Nat)) :=
  match prim with
  | some p => .ret (some p) st
  | none =>
    if st.engine_stage = SURICATA_INIT then
      fatalPath st "SCStrdup failed" (some (cstrlen a)) none
    else
      .ret none st

/-- OpenBSD `strlcpy(dst, src, siz)` acting on a destination buffer of
`dst.length` bytes: copy at most `siz - 1` bytes of the C string `src`,
write a NUL terminator after them when `siz > 0`, and leave the
remaining destination bytes untouched. -/
def strlcpyBuf (dst src : List Nat) (siz : Nat) : List Nat :=
  if siz = 0 then dst
  else
    (List.range dst.length).map (fun i =>
      if i < min (cstrlen src) (siz - 1) then src.getD i 0
      else if i = min (cstrlen src) (siz - 1) then 0
      else dst.getD i 0)

/-- Buffer produced by the success branch of the `SCStrndup` fallback:
`strlcpy(ptrmem, a, b + 1)` into the fresh `malloc` block `ptrmem`
(whose uninitialized contents are `ptrmem`'s list entries), then the
explicit terminator write `*(ptrmem + b) = '\0'`. -/
def scstrndupResult (a ptrmem : List Nat) (b : Nat) : List Nat :=
  (strlcpyBuf ptrmem a (b + 1)).set b 0

/-- `SCStrndup(a, b)` manual fallback (the `#ifndef HAVE_STRNDUP`
branch): allocate `_scstrndup_len = b + 1` bytes — `prim` is the oracle
result of that `malloc`, carrying the uninitialized contents of the
fresh block — then `strlcpy` the source into it and write a NUL at
index `b`.  On NULL the fatal diagnostic prints `b + 1`. -/
def SCStrndup_fallback (st : MemState) (a : List Nat) (b : Nat)
    (prim : Option (List Nat)) : Outcome (Option (List Nat)) :=
  match prim with
  | none =>
    if st.engine_stage = SURICATA_INIT then
      fatalPath st "SCStrndup failed" (some (b + 1)) none
    else
      .ret none st
  | some ptrmem =>
    .ret (some (scstrndupResult a ptrmem b)) st

/-- C library `free`: `free(NULL)` is a no-op; otherwise the block is
released (recorded in the `freed` accounting list). -/
def c_free (st : MemState) (a : Option Nat) : MemState :=
  match a with
  | none => st
  | some p => { st with freed := st.freed ++ [p] }

/-- `SCFree(a)`: the macro expands to exactly `free(a)`. -/
def SCFree (st : MemState) (a : Option Nat) : MemState := c_free st a

/-- `SCFreeAligned(a)` on non-Windows: the macro expands to exactly
`free(a)`. -/
def SCFreeAligned (st : MemState) (a : Option Nat) : MemState := c_free st a

/-- `SCMallocAligned(a, b)` on non-Windows: `posix_memalign(&ptrmem, b, a)`
is modeled by its oracle outputs `r` (the returned status) and `ptrmem`
(the pointer it stored).  On failure (`_r != 0 || ptrmem == NULL`) a
non-null `ptrmem` is freed and nulled first; then the stage gate decides
between the fatal path (diagnostic carrying size and alignment) and
returning NULL. -/
def SCMallocAligned (st : MemState) (a b : Nat) (r : Nat) (ptrmem : Option Nat) :
    Outcome (Option Nat) :=
  if r ≠ 0 ∨ ptrmem = none then
    let st1 := match ptrmem with
      | some p => { st with freed := st.freed ++ [p] }
      | none => st
    if st1.engine_stage = SURICATA_INIT then
      fatalPath st1 "SCMallocAligned(posix_memalign) failed" (some a) (some b)
    else
      .ret none st1
  else
    .ret ptrmem st

/-- Modelled from the spec: a distinguished out-of-memory-during-
initialization exit status would have to be distinct from the graceful
exit status and not merely the generic failure status `EXIT_FAILURE`
shared with other failure exits. -/
def isDistinguishedOOMStatus (c : Nat) : Prop :=
  c ≠ EXIT_SUCCESS ∧ c ≠ EXIT_FAILURE

/-- The call terminated the process with status `EXIT_FAILURE` after
emitting at least one diagnostic beyond those already recorded in `st`. -/
def diedWithDiag {α : Type} (st : MemState) (o : Outcome α) : Prop :=
  o.exitCode = some EXIT_FAILURE ∧ st.diagLog.length < o.state.diagLog.length

/-- The call returned NULL to the caller, did not terminate the process,
and emitted no diagnostic. -/
def returnedNullSilently {α : Type} (st : MemState) (o : Outcome (Option α)) : Prop :=
  o.retv = some none ∧ o.exitCode = none ∧ o.state.diagLog = st.diagLog

lemma scLogError_stage (st : MemState) (d : DiagnosticRecord) :
    (scLogError st d).engine_stage = st.engine_stage := rfl

lemma fatalPath_state_stage {α : Type} (st : MemState) (op : String)
    (bytes alignment : Option Nat) :
    (fatalPath st op bytes alignment : Outcome α).state.engine_stage = st.engine_stage := rfl

/-- C7: no operation of the facade writes the `engine_stage` gate: for
every operation, every starting state and every oracle result, the
`engine_stage` value of the state at the end of the call (whether the
call returned or hit the exit point) equals the starting value — the
operations only read the gate. -/
theorem stage_never_written (st : MemState) (a nm n al r : Nat)
    (x fp p prim : Option Nat) (s : List Nat) (sprim : Option (List Nat)) :
    (SCMalloc st a prim).state.engine_stage = st.engine_stage ∧
    (SCCalloc st nm a prim).state.engine_stage = st.engine_stage ∧
    (SCRealloc st x a prim).state.engine_stage = st.engine_stage ∧
    (SCStrdup st s sprim).state.engine_stage = st.engine_stage ∧
    (SCStrndup_fallback st s n sprim).state.engine_stage = st.engine_stage ∧
    (SCMallocAligned st a al r p).state.engine_stage = st.engine_stage ∧
    (SCFree st fp).engine_stage = st.engine_stage ∧
    (SCFreeAligned st fp).engine_stage = st.engine_stage := by
  refine ⟨?_, ?_, ?_, ?_, ?_, ?_, ?_, ?_⟩
  · cases prim <;> simp only [SCMalloc] <;> (try split) <;> rfl
  · cases prim <;> simp only [SCCalloc] <;> (try split) <;> rfl
  · cases prim <;> simp only [SCRealloc] <;> (try split) <;> rfl
  · cases sprim <;> simp only [SCStrdup] <;> (try split) <;> rfl
  · cases sprim <;> simp only [SCStrndup_fallback] <;> (try split) <;> rfl
  · cases p <;> simp only [SCMallocAligned] <;> (try split) <;> (try split) <;> rfl
  · cases fp <;> rfl
  · cases fp <;> rfl

lemma diedWithDiag_fatalPath {α : Type} (st st1 : MemState) (op : String)
    (bytes alignment : Option Nat) (hd : st1.diagLog = st.diagLog) :
    diedWithDiag st (fatalPath st1 op bytes alignment : Outcome α) := by
  refine ⟨rfl, ?_⟩
  simp only [fatalPath, scLogError, Outcome.state, hd, List.length_append,
    List.length_cons, List.length_nil]
  omega

lemma guarded_alloc_failure_cases (st : MemState)
    (a nm n al sz r : Nat) (x p : Option Nat) (s : List Nat)
    (hfail : r ≠ 0 ∨ p = none) :
    (st.engine_stage = SURICATA_INIT →
      diedWithDiag st (SCMalloc st a none) ∧
      diedWithDiag st (SCCalloc st nm a none) ∧
      diedWithDiag st (SCRealloc st x a none) ∧
      diedWithDiag st (SCStrdup st s none) ∧
      diedWithDiag st (SCStrndup_fallback st s n none) ∧
      diedWithDiag st (SCMallocAligned st sz al r p)) ∧
    (st.engine_stage ≠ SURICATA_INIT →
      returnedNullSilently st (SCMalloc st a none) ∧
      returnedNullSilently st (SCCalloc st nm a none) ∧
      returnedNullSilently st (SCRealloc st x a none) ∧
      returnedNullSilently st (SCStrdup st s none) ∧
      returnedNullSilently st (SCStrndup_fallback st s n none) ∧
      returnedNullSilently st (SCMallocAligned st sz al r p)) := by
  constructor
  · intro h
    refine ⟨?_, ?_, ?_, ?_, ?_, ?_⟩
    · simp only [SCMalloc, if_pos h]
      exact diedWithDiag_fatalPath st st _ _ _ rfl
    · simp only [SCCalloc, if_pos h]
      exact diedWithDiag_fatalPath st st _ _ _ rfl
    · simp only [SCRealloc, if_pos h]
      exact diedWithDiag_fatalPath st st _ _ _ rfl
    · simp only [SCStrdup, if_pos h]
      exact diedWithDiag_fatalPath st st _ _ _ rfl
    · simp only [SCStrndup_fallback, if_pos h]
      exact diedWithDiag_fatalPath st st _ _ _ rfl
    · cases p with
      | none =>
        simp only [SCMallocAligned, or_true, if_pos, if_true]
        rw [if_pos h]
        exact diedWithDiag_fatalPath st st _ _ _ rfl
      | some q =>
        rcases hfail with hr | hp
        · simp only [SCMallocAligned]
          rw [if_pos (Or.inl hr), if_pos h]
          exact diedWithDiag_fatalPath st _ _ _ _ rfl
        · exact absurd hp (by simp)
  · intro h
    refine ⟨?_, ?_, ?_, ?_, ?_, ?_⟩
    · simp only [SCMalloc, if_neg h]
      exact ⟨rfl, rfl, rfl⟩
    · simp only [SCCalloc, if_neg h]
      exact ⟨rfl, rfl, rfl⟩
    · simp only [SCRealloc, if_neg h]
      exact ⟨rfl, rfl, rfl⟩
    · simp only [SCStrdup, if_neg h]
      exact ⟨rfl, rfl, rfl⟩
    · simp only [SCStrndup_fallback, if_neg h]
      exact ⟨rfl, rfl, rfl⟩
    · cases p with
      | none =>
        simp only [SCMallocAligned, or_true, if_true]
        rw [if_neg h]
        exact ⟨rfl, rfl, rfl⟩
      | some q =>
        rcases hfail with hr | hp
        · simp only [SCMallocAligned]
          rw [if_pos (Or.inl hr), if_neg h]
          exact ⟨rfl, rfl, rfl⟩
        · exact absurd hp (by simp)

/-- C1: for every non-release operation, when the underlying primitive
fails the outcome is determined solely by the lifecycle phase: in stage
`SURICATA_INIT` the call emits diagnostics and terminates the process
with `EXIT_FAILURE`; in any other stage the call returns NULL to the
caller with no diagnostic emitted and no termination. -/
theorem alloc_failure_outcome_phase_determined (st : MemState)
    (a nm n al sz r : Nat) (x p : Option Nat) (s : List Nat)
    (hfail : r ≠ 0 ∨ p = none) :
    (st.engine_stage = SURICATA_INIT →
      diedWithDiag st (SCMalloc st a none) ∧
      diedWithDiag st (SCCalloc st nm a none) ∧
      diedWithDiag st (SCRealloc st x a none) ∧
      diedWithDiag st (SCStrdup st s none) ∧
      diedWithDiag st (SCStrndup_fallback st s n none) ∧
      diedWithDiag st (SCMallocAligned st sz al r p)) ∧
    (st.engine_stage ≠ SURICATA_INIT →
      returnedNullSilently st (SCMalloc st a none) ∧
      returnedNullSilently st (SCCalloc st nm a none) ∧
      returnedNullSilently st (SCRealloc st x a none) ∧
      returnedNullSilently st (SCStrdup st s none) ∧
      returnedNullSilently st (SCStrndup_fallback st s n none) ∧
      returnedNullSilently st (SCMallocAligned st sz al r p)) :=
  guarded_alloc_failure_cases st a nm n al sz r x p s hfail

/-- Witness for C1: with an empty log and stage `SURICATA_INIT`, a failed
`SCMalloc` dies with a diagnostic; with stage `1` it returns NULL
silently. -/
theorem alloc_failure_outcome_phase_determined_witness :
    diedWithDiag ⟨0, [], []⟩ (SCMalloc ⟨0, [], []⟩ 5 none) ∧
    returnedNullSilently ⟨1, [], []⟩ (SCMalloc ⟨1, [], []⟩ 5 none) := by
  have h0 := alloc_failure_outcome_phase_determined ⟨0, [], []⟩ 5 6 7 8 9 1
    none none [] (Or.inl (by decide))
  have h1 := alloc_failure_outcome_phase_determined ⟨1, [], []⟩ 5 6 7 8 9 1
    none none [] (Or.inl (by decide))
  exact ⟨(h0.1 rfl).1, (h1.2 (by decide)).1⟩

/-- C2: when `posix_memalign` reports failure through its status result
while still storing a non-null pointer, `SCMallocAligned` frees that
pointer before reporting the failure outward (in either phase), and in a
non-`SURICATA_INIT` phase the call then returns NULL with the pointer
recorded as released. -/
theorem aligned_partial_failure_no_leak (st : MemState) (a b r p : Nat)
    (hr : r ≠ 0) :
    (SCMallocAligned st a b r (some p)).state.freed = st.freed ++ [p] ∧
    (st.engine_stage ≠ SURICATA_INIT →
      SCMallocAligned st a b r (some p) =
        .ret none { st with freed := st.freed ++ [p] }) := by
  constructor
  · simp only [SCMallocAligned]
    rw [if_pos (Or.inl hr)]
    split
    · simp [fatalPath, scLogError, Outcome.state]
    · rfl
  · intro h
    simp only [SCMallocAligned]
    rw [if_pos (Or.inl hr), if_neg h]

/-- Witness for C2: a failed `posix_memalign` (status 12, pointer 77) in
stage `1` returns NULL and the accounting shows pointer 77 released. -/
theorem aligned_partial_failure_no_leak_witness :
    (SCMallocAligned ⟨1, [], []⟩ 64 16 12 (some 77)).state.freed = [77] ∧
    SCMallocAligned ⟨1, [], []⟩ 64 16 12 (some 77) =
      .ret none ⟨1, [], [77]⟩ := by
  have h := aligned_partial_failure_no_leak ⟨1, [], []⟩ 64 16 12 77 (by decide)
  exact ⟨h.1, h.2 (by decide)⟩

/-- C3 counterexample: a fatal `SCMalloc` failure in stage
`SURICATA_INIT` exits with `EXIT_FAILURE`, the C generic failure status,
which is not a distinguished out-of-memory status (it is the very status
shared with every other failure exit). -/
theorem fatal_exit_status_cex :
    (SCMalloc ⟨SURICATA_INIT, [], []⟩ 42 none).exitCode = some EXIT_FAILURE ∧
    ¬ isDistinguishedOOMStatus EXIT_FAILURE := by
  exact ⟨rfl, fun hc => hc.2 rfl⟩

/-- C3 amended: every fatal allocation failure exits with the one status
`EXIT_FAILURE` (the C generic failure status, value 1), which is
non-zero and thus distinct from the graceful exit status, but is not an
out-of-memory-specific distinguished code. -/
theorem fatal_exit_status (st : MemState) (a nm n al sz r : Nat)
    (x p : Option Nat) (s : List Nat)
    (h : st.engine_stage = SURICATA_INIT) (hfail : r ≠ 0 ∨ p = none) :
    (SCMalloc st a none).exitCode = some EXIT_FAILURE ∧
    (SCCalloc st nm a none).exitCode = some EXIT_FAILURE ∧
    (SCRealloc st x a none).exitCode = some EXIT_FAILURE ∧
    (SCStrdup st s none).exitCode = some EXIT_FAILURE ∧
    (SCStrndup_fallback st s n none).exitCode = some EXIT_FAILURE ∧
    (SCMallocAligned st sz al r p).exitCode = some EXIT_FAILURE ∧
    EXIT_FAILURE ≠ EXIT_SUCCESS := by
  have hmain := guarded_alloc_failure_cases st a nm n al sz r x p s hfail
  have hd := hmain.1 h
  exact ⟨hd.1.1, hd.2.1.1, hd.2.2.1.1, hd.2.2.2.1.1, hd.2.2.2.2.1.1,
    hd.2.2.2.2.2.1, by decide⟩

/-- Witness for C3 amended: at stage `SURICATA_INIT`, the failed
`SCMalloc` exit status is `EXIT_FAILURE` and `EXIT_FAILURE` differs from
`EXIT_SUCCESS`. -/
theorem fatal_exit_status_witness :
    (SCMalloc ⟨0, [], []⟩ 5 none).exitCode = some EXIT_FAILURE ∧
    EXIT_FAILURE ≠ EXIT_SUCCESS := by
  have h := fatal_exit_status ⟨0, [], []⟩ 5 6 7 8 9 1 none none []
    rfl (Or.inl (by decide))
  exact ⟨h.1, h.2.2.2.2.2.2⟩

lemma cstrlen_le_length (s : List Nat) : cstrlen s ≤ s.length :=
  (List.takeWhile_prefix _).length_le

lemma getD_default_of_le (l : List Nat) (i d : Nat) (h : l.length ≤ i) :
    l.getD i d = d := by
  simp [List.getD_eq_getElem?_getD, List.getElem?_eq_none h]

lemma getD_set_self (l : List Nat) (i v : Nat) (hi : i < l.length) :
    (l.set i v).getD i 0 = v := by
  rw [List.getD_eq_getElem _ 0 (by simpa using hi)]
  simp [List.getElem_set]

lemma getD_set_ne (l : List Nat) (i j v : Nat) (hne : i ≠ j) :
    (l.set i v).getD j 0 = l.getD j 0 := by
  by_cases hj : j < l.length
  · rw [List.getD_eq_getElem _ 0 (by simpa using hj), List.getD_eq_getElem _ 0 hj]
    exact List.getElem_set_of_ne hne v _
  · rw [getD_default_of_le _ _ _ (by simpa using le_of_not_lt hj),
      getD_default_of_le _ _ _ (le_of_not_lt hj)]

lemma getD_map_range (m i : Nat) (f : Nat → Nat) (hi : i < m) :
    ((List.range m).map f).getD i 0 = f i := by
  rw [List.getD_eq_getElem _ 0 (by simpa using hi)]
  simp

lemma strlcpyBuf_length (dst src : List Nat) (siz : Nat) :
    (strlcpyBuf dst src siz).length = dst.length := by
  unfold strlcpyBuf
  split
  · rfl
  · simp

lemma scstrndupResult_length (a ptrmem : List Nat) (b : Nat) :
    (scstrndupResult a ptrmem b).length = ptrmem.length := by
  simp [scstrndupResult, strlcpyBuf_length]

/-- Byte-level characterization of the fallback result: the terminator
write dominates at index `b`; below it, `strlcpy` copied the source up
to `min (cstrlen a) b`, wrote a NUL there, and left the rest of the
fresh block untouched. -/
lemma scstrndupResult_getD (a ptrmem : List Nat) (b i : Nat)
    (hlen : ptrmem.length = b + 1) (hi : i ≤ b) :
    (scstrndupResult a ptrmem b).getD i 0 =
      if i = b then 0
      else if i < min (cstrlen a) b then a.getD i 0
      else if i = min (cstrlen a) b then 0
      else ptrmem.getD i 0 := by
  unfold scstrndupResult strlcpyBuf
  rw [if_neg (Nat.succ_ne_zero b)]
  simp only [Nat.add_sub_cancel]
  by_cases hib : i = b
  · subst hib
    rw [getD_set_self _ _ _ (by simp [hlen]), if_pos rfl]
  · rw [getD_set_ne _ _ _ _ (fun hh => hib hh.symm),
      getD_map_range _ _ _ (by simp [hlen]; omega), if_neg hib]

/-- C4: for a source string `s` and a length `n` with `n ≤ strlen(s)`, a
successful `SCStrndup` fallback call returns a buffer of `n + 1` bytes
holding exactly the first `n` bytes of `s` followed by a NUL at
position `n`. -/
theorem strndup_truncates (st : MemState) (s ptrmem : List Nat) (n : Nat)
    (hn : n ≤ cstrlen s) (hlen : ptrmem.length = n + 1) :
    (SCStrndup_fallback st s n (some ptrmem)).retv =
      some (some (scstrndupResult s ptrmem n)) ∧
    scstrndupResult s ptrmem n = s.take n ++ [0] ∧
    (scstrndupResult s ptrmem n).length = n + 1 := by
  have hsl : n ≤ s.length := le_trans hn (cstrlen_le_length s)
  have hres : scstrndupResult s ptrmem n = s.take n ++ [0] := by
    apply List.ext_getElem
    · simp [scstrndupResult_length, hlen, Nat.min_eq_left hsl]
    · intro i h1 h2
      have hi : i ≤ n := by
        rw [scstrndupResult_length, hlen] at h1
        omega
      rw [← List.getD_eq_getElem _ 0 h1,
        scstrndupResult_getD s ptrmem n i hlen hi, Nat.min_eq_right hn]
      by_cases hib : i = n
      · subst hib
        rw [if_pos rfl]
        simp [List.getElem_append, List.length_take, Nat.min_eq_left hsl]
      · have hilt : i < n := lt_of_le_of_ne hi hib
        rw [if_neg hib, if_pos hilt,
          List.getD_eq_getElem _ 0 (lt_of_lt_of_le hilt hsl)]
        simp [List.getElem_append, List.length_take, Nat.min_eq_left hsl, hilt,
          List.getElem_take]
  exact ⟨rfl, hres, by rw [scstrndupResult_length, hlen]⟩

/-- Witness for C4: `duplicate_substring("hello", 3)` — source bytes
`[104, 101, 108, 108, 111]`, a 4-byte junk block — yields `"hel\0"`,
the bytes `[104, 101, 108, 0]`. -/
theorem strndup_truncates_witness :
    scstrndupResult [104, 101, 108, 108, 111] [9, 9, 9, 9] 3 =
      [104, 101, 108, 0] := by
  have h := strndup_truncates ⟨0, [], []⟩ [104, 101, 108, 108, 111]
    [9, 9, 9, 9] 3 (by decide) (by decide)
  exact h.2.1.trans (by decide)

/-- C5: for every source `s` and every requested length `n` — including
`n` beyond `strlen(s)` — the buffer returned by a successful
`SCStrndup` fallback call carries a NUL byte at position `n`. -/
theorem strndup_terminator (st : MemState) (s ptrmem : List Nat) (n : Nat)
    (hlen : ptrmem.length = n + 1) :
    (SCStrndup_fallback st s n (some ptrmem)).retv =
      some (some (scstrndupResult s ptrmem n)) ∧
    (scstrndupResult s ptrmem n).getD n 0 = 0 := by
  refine ⟨rfl, ?_⟩
  rw [scstrndupResult_getD s ptrmem n n hlen le_rfl, if_pos rfl]

/-- Witness for C5: requested length 5 exceeds the length 3 of source
`"hel"`, and the result still has a NUL at position 5. -/
theorem strndup_terminator_witness :
    (scstrndupResult [104, 101, 108] [7, 7, 7, 7, 7, 7] 5).getD 5 0 = 0 :=
  (strndup_terminator ⟨0, [], []⟩ [104, 101, 108] [7, 7, 7, 7, 7, 7] 5
    (by decide)).2

/-- C9: when the requested length `n` exceeds `strlen(s)`, the fallback
copies exactly the `strlen(s)` source bytes (with `strlcpy`'s NUL right
after them), writes the terminator at position `n`, and leaves the gap
at positions `strlen(s) + 1` through `n - 1` holding whatever bytes the
fresh `malloc` block contained — the gap is never zero-padded. -/
theorem strndup_gap_not_padded (st : MemState) (s ptrmem : List Nat) (n : Nat)
    (hgt : cstrlen s < n) (hlen : ptrmem.length = n + 1) :
    (SCStrndup_fallback st s n (some ptrmem)).retv =
      some (some (scstrndupResult s ptrmem n)) ∧
    (scstrndupResult s ptrmem n).take (cstrlen s) = s.take (cstrlen s) ∧
    (scstrndupResult s ptrmem n).getD (cstrlen s) 0 = 0 ∧
    (∀ i, cstrlen s < i → i < n →
      (scstrndupResult s ptrmem n).getD i 0 = ptrmem.getD i 0) ∧
    (scstrndupResult s ptrmem n).getD n 0 = 0 := by
  have hmin : min (cstrlen s) n = cstrlen s := Nat.min_eq_left (Nat.le_of_lt hgt)
  refine ⟨rfl, ?_, ?_, ?_, ?_⟩
  · apply List.ext_getElem
    · simp [scstrndupResult_length, hlen, Nat.min_eq_left (cstrlen_le_length s)]
      omega
    · intro i h1 h2
      have hi : i < cstrlen s := by
        simp [List.length_take] at h1
        omega
      rw [List.getElem_take, List.getElem_take,
        ← List.getD_eq_getElem _ 0 (by rw [scstrndupResult_length, hlen]; omega),
        scstrndupResult_getD s ptrmem n i hlen (by omega), hmin,
        if_neg (by omega : ¬ i = n), if_pos hi,
        List.getD_eq_getElem _ 0 (lt_of_lt_of_le hi (cstrlen_le_length s))]
  · rw [scstrndupResult_getD s ptrmem n (cstrlen s) hlen (Nat.le_of_lt hgt), hmin,
      if_neg (by omega : ¬ cstrlen s = n), if_neg (by omega : ¬ cstrlen s < cstrlen s),
      if_pos rfl]
  · intro i hgl hln
    rw [scstrndupResult_getD s ptrmem n i hlen (Nat.le_of_lt hln), hmin,
      if_neg (by omega : ¬ i = n), if_neg (by omega : ¬ i < cstrlen s),
      if_neg (by omega : ¬ i = cstrlen s)]
  · rw [scstrndupResult_getD s ptrmem n n hlen le_rfl, if_pos rfl]

/-- Witness for C9: source `"hel"` (strlen 3), requested length 5, junk
block filled with byte 7 — gap position 4 still holds byte 7. -/
theorem strndup_gap_not_padded_witness :
    (scstrndupResult [104, 101, 108] [7, 7, 7, 7, 7, 7] 5).getD 4 0 = 7 := by
  have h := strndup_gap_not_padded ⟨0, [], []⟩ [104, 101, 108]
    [7, 7, 7, 7, 7, 7] 5 (by decide) (by decide)
  exact (h.2.2.2.1 4 (by decide) (by decide)).trans (by decide)

/-- C6 counterexample: for source `"a"` (byte list `[97]`) in stage
`SURICATA_INIT`, the failed `SCStrdup` emits a diagnostic carrying byte
count 1 — `strlen("a")` — while the failed `strdup` allocation requested
2 bytes (the source length including its terminator), so the reported
count differs from the requested count. -/
theorem strdup_diag_bytes_cex :
    ((SCStrdup ⟨SURICATA_INIT, [], []⟩ [97] none).state.diagLog.getD 0
        fatalRec).bytes = some 1 ∧
    strdupRequestBytes [97] = 2 ∧
    ((SCStrdup ⟨SURICATA_INIT, [], []⟩ [97] none).state.diagLog.getD 0
        fatalRec).bytes ≠ some (strdupRequestBytes [97]) := by
  refine ⟨rfl, rfl, by decide⟩

/-- C6 amended: the fatal diagnostic carries the byte count the macro
computes for its format arguments: the full requested size for
`SCMalloc` and `SCRealloc`, the element-size argument for `SCCalloc`,
and `n + 1` (the requested size) for the `SCStrndup` fallback; for
`SCStrdup` however it carries `strlen(source)` — the source length
excluding its terminator — which is one less than the
`strlen(source) + 1` bytes the failed `strdup` allocation requested. -/
theorem diag_bytes_reported (st : MemState) (a nm n : Nat) (x : Option Nat)
    (s : List Nat) (h : st.engine_stage = SURICATA_INIT) :
    (SCMalloc st a none).state.diagLog =
      st.diagLog ++ [⟨.SC_ERR_MEM_ALLOC, "SCMalloc failed", some a, none⟩, fatalRec] ∧
    (SCCalloc st nm a none).state.diagLog =
      st.diagLog ++ [⟨.SC_ERR_MEM_ALLOC, "SCCalloc failed", some a, none⟩, fatalRec] ∧
    (SCRealloc st x a none).state.diagLog =
      st.diagLog ++ [⟨.SC_ERR_MEM_ALLOC, "SCRealloc failed", some a, none⟩, fatalRec] ∧
    (SCStrndup_fallback st s n none).state.diagLog =
      st.diagLog ++ [⟨.SC_ERR_MEM_ALLOC, "SCStrndup failed", some (n + 1), none⟩, fatalRec] ∧
    (SCStrdup st s none).state.diagLog =
      st.diagLog ++ [⟨.SC_ERR_MEM_ALLOC, "SCStrdup failed", some (cstrlen s), none⟩, fatalRec] ∧
    cstrlen s + 1 = strdupRequestBytes s := by
  refine ⟨?_, ?_, ?_, ?_, ?_, rfl⟩ <;>
    simp [SCMalloc, SCCalloc, SCRealloc, SCStrndup_fallback, SCStrdup, h,
      fatalPath, scLogError, Outcome.state]

/-- Witness for C6 amended: a failed `SCStrdup` of `"hi"` in stage
`SURICATA_INIT` logs byte count 2 (`strlen("hi")`), not the 3 bytes the
allocation requested. -/
theorem diag_bytes_reported_witness :
    (SCStrdup ⟨0, [], []⟩ [104, 105] none).state.diagLog =
      [⟨.SC_ERR_MEM_ALLOC, "SCStrdup failed", some 2, none⟩, fatalRec] ∧
    strdupRequestBytes [104, 105] = 3 := by
  have h := diag_bytes_reported ⟨0, [], []⟩ 1 2 3 none [104, 105] rfl
  exact ⟨h.2.2.2.2.1.trans (by decide), by decide⟩

/-- C8: `SCFree(NULL)` is a no-op: it leaves the whole observable state
unchanged (no deallocation is recorded, no diagnostic is emitted, the
gate is untouched), it cannot terminate the process (its result type has
no exit point), and its result does not depend on the lifecycle phase. -/
theorem free_null_noop (st : MemState) : SCFree st none = st := rfl

/-- C10: on non-Windows platforms `SCFreeAligned` is extensionally
identical to `SCFree`: both expand to the plain `free(a)` and perform
exactly the same state transformation on every handle, null included. -/
theorem freeAligned_eq_free (st : MemState) (a : Option Nat) :
    SCFreeAligned st a = SCFree st a := rfl

end UtilMem
